import Mathlib

/-!
Shallow embedding of the UTube ulauncher extension (`src/main.py`) and proofs
about its specified behaviour.

Modelling conventions, used throughout:
* Python strings are Lean `String`s (lists of `Char`); all inputs of interest
  are ASCII, so `Char.toLower` agrees with Python `str.lower()` on them.
* Python dicts with `.get`-chains and defaults collapse to `Option` fields;
  the doc comment of each structure field names the source path it stands for.
* Exceptions are `Except Unit`; an `.error` value reaching the pipeline
  boundary is the `except Exception` handler firing.
* Network and filesystem effects are oracles carried in an environment
  (`Env`): the result of the page GET, the json parse of a block, which
  file paths exist, and which thumbnail fetches would succeed.
-/

namespace UTube

/-- Python `\w` word character (ASCII fragment): letters, digits, underscore. -/
def isWordChar (c : Char) : Bool := c.isAlphanum || c = '_'

/-- If `w` is a leading run of `s`, return the remainder of `s` after it. -/
def dropLead? : List Char → List Char → Option (List Char)
  | [], s => some s
  | _ :: _, [] => none
  | a :: w, b :: s => if a = b then dropLead? w s else none

/-- Split `s` at the first occurrence of `sep`: Python `s.split(sep)` exposes
the part before the first occurrence and the remainder after it. -/
def splitFirst? (sep : List Char) : List Char → Option (List Char × List Char)
  | [] => if sep = [] then some ([], []) else none
  | c :: rest =>
    match dropLead? sep (c :: rest) with
    | some after => some ([], after)
    | none => (splitFirst? sep rest).map (fun p => (c :: p.1, p.2))

/-- Python substring test `sep in s` (for the nonempty needles used here). -/
def pyContains (needle hay : List Char) : Bool := (splitFirst? needle hay).isSome

/-- Python `s.split(sep)[0]`: the part before the first occurrence of `sep`,
or all of `s` when `sep` does not occur (indexing `[0]` never raises). -/
def headSplit (sep t : List Char) : List Char :=
  match splitFirst? sep t with
  | some p => p.1
  | none => t

/-- Python `str.lower()` (ASCII fragment). -/
def pyLower (s : String) : String := ⟨s.data.map Char.toLower⟩

/-- Python single-character `str.replace(a, b)`. -/
def replaceChar (a b : Char) (s : String) : String :=
  ⟨s.data.map (fun c => if c = a then b else c)⟩

/-- Python `f"{x}"` on an optional string: `None` prints as `"None"`. -/
def pyStrOpt (o : Option String) : String := o.getD "None"

/-- Whitespace as Python `str.strip()` sees it (ASCII fragment). -/
def isSpaceChar (c : Char) : Bool :=
  c = ' ' || c = '\t' || c = '\n' || c = '\r' || c = '\x0b' || c = '\x0c'

/-- Python `str.strip()`: drop leading and trailing whitespace. -/
def pyStrip (s : String) : String :=
  ⟨((s.data.dropWhile isSpaceChar).reverse.dropWhile isSpaceChar).reverse⟩

/-- Value of a decimal digit run (digits are ASCII `'0'`–`'9'`). -/
def natOfDigits (ds : List Char) : Nat := ds.foldl (fun n c => 10 * n + (c.toNat - 48)) 0

/-- Python `int(s)` on a string: optional surrounding whitespace, optional
sign, then a nonempty digit run; anything else raises `ValueError` (`none`). -/
def pyInt? (s : String) : Option Int :=
  match s.trim.data with
  | '-' :: ds => if ds ≠ [] ∧ ds.all Char.isDigit then some (-(natOfDigits ds : Int)) else none
  | '+' :: ds => if ds ≠ [] ∧ ds.all Char.isDigit then some ((natOfDigits ds : Int)) else none
  | ds => if ds ≠ [] ∧ ds.all Char.isDigit then some ((natOfDigits ds : Int)) else none

/-- Association-list lookup modelling Python `dict.get` on the translations
dict (the tables used here have pairwise distinct keys). -/
def lookupT : List (String × String) → String → Option String
  | [], _ => none
  | (k, v) :: rest, key => if k = key then some v else lookupT rest key

/-- Source `UTube.i18n`: `self.translations.get(key, default)`. -/
def i18n (translations : List (String × String)) (key dflt : String) : String :=
  (lookupT translations key).getD dflt

/-- A digit or a decimal dot, the character class `[\d.]` of the view-count regex. -/
def isNumChar (c : Char) : Bool := c.isDigit || c = '.'

/-- Result of `re.search(r'(\d+[\d.]*)', v)`: from the first digit of `v`,
the greedy run of digits and dots (the pattern starts at the first position
where `\d+` can match, and `\d+[\d.]*` then takes every digit or dot). -/
def firstNumRun? : List Char → Option (List Char)
  | [] => none
  | c :: rest => if c.isDigit then some ((c :: rest).takeWhile isNumChar) else firstNumRun? rest

/-- Models `int(float(s))` for `s` a digits-and-dots run starting with a digit
(the only shape `firstNumRun?` produces): `float` raises `ValueError` when the
run has more than one dot, and otherwise the truncated value is the leading
digit run.  Decimal values are modelled exactly; the double rounding of
`float` differs only for fractional parts of more than fifteen digits, which
no view-count string reaches. -/
def pyFloatTrunc? (run : List Char) : Option Nat :=
  if run.count '.' ≤ 1 then some (natOfDigits (run.takeWhile Char.isDigit)) else none

/-- Boundary-aware match of the all-word-character pattern `w` at the head of
`s` (the regex `\b w \b`): `prevW` says whether the character just before this
position is a word character (so the leading `\b` fails), and the trailing
`\b` requires the character after the match, if any, to be a non-word
character.  Returns the remainder of `s` after the match. -/
def wbMatch? (w : List Char) (prevW : Bool) (s : List Char) : Option (List Char) :=
  match w, s with
  | a :: w1, c :: s1 =>
    if prevW then none
    else if a = c then
      match dropLead? w1 s1 with
      | none => none
      | some after =>
        match after with
        | [] => some []
        | b :: _ => if isWordChar b then none else some after
    else none
  | _, _ => none

/-- One pass of `re.sub(r'\b' + w + r'\b', tr, text)` for a pattern `w` made
of word characters: scan left to right; at a boundary match emit `tr` and
continue after the matched region (whose last character is a word character,
so the next position starts with `prevW = true`); otherwise emit the current
character.  The replacement text is emitted literally and never rescanned.
Every step consumes at least one character of the text (a match consumes the
nonempty pattern), so with `fuel` at least the text length — as `subWB`
always supplies — the fuel never runs out and the scan is exactly Python's. -/
def subWBFuel (w tr : List Char) : Nat → Bool → List Char → List Char
  | 0, _, s => s
  | _ + 1, _, [] => []
  | fuel + 1, prevW, c :: rest =>
    match wbMatch? w prevW (c :: rest) with
    | some after => tr ++ subWBFuel w tr fuel true after
    | none => c :: subWBFuel w tr fuel (isWordChar c) rest

/-- Whole-word substitution starting at the beginning of the text (no
preceding character, so the leading boundary holds there). -/
def subWB (w tr text : List Char) : List Char := subWBFuel w tr text.length false text

/-- Whether the all-word-character pattern `w` has any boundary (whole-word)
occurrence in `s`, with `prevW` the word-character status just before `s`. -/
def hasWB (w : List Char) : Bool → List Char → Bool
  | _, [] => false
  | prevW, c :: rest => (wbMatch? w prevW (c :: rest)).isSome || hasWB w (isWordChar c) rest

/-- The relative-time vocabulary of `UTube.translate_date`, in source order. -/
def dateWords : List String :=
  ["ago", "hour", "hours", "day", "days", "week", "weeks", "month", "months",
   "year", "years", "minute", "minutes"]

/-- Source `UTube.translate_date`: empty input short-circuits to `""`;
otherwise the input is lowercased and each vocabulary word is replaced, in
vocabulary order, at its whole-word occurrences by its translation (falling
back to the word itself). -/
def translate_date (translations : List (String × String)) (date_str : String) : String :=
  if date_str = "" then ""
  else ⟨dateWords.foldl
          (fun text w => subWB w.data (i18n translations w w).data text)
          (pyLower date_str).data⟩

/-- Source `UTube.format_views`: lower-case, comma→dot, extract the first
digits-and-dots run, truncate its value, then classify the magnitude by
substring scans in source order (billion, then million, then thousand).
The bare `except` returns `""` for absent or unparseable numbers. -/
def format_views (translations : List (String × String)) (v : String) : String :=
  if v = "" then ""
  else
    let w : List Char := (v.data.map Char.toLower).map (fun c => if c = ',' then '.' else c)
    match firstNumRun? w with
    | none => ""
    | some run =>
      match pyFloatTrunc? run with
      | none => ""
      | some n =>
        let sb := i18n translations "suffix_billion" "bi"
        let sm := i18n translations "suffix_million" "mi"
        let st := i18n translations "suffix_thousand" " mil"
        if pyContains ['b', 'i'] w || pyContains ['b'] w then
          toString n ++ " " ++ sb
        else if pyContains ['m', 'i'] w ||
                (pyContains ['m'] w && !(pyContains ['m', 'i', 'l'] w) && !(pyContains ['k'] w)) then
          toString n ++ " " ++ sm
        else if pyContains ['m', 'i', 'l'] w || pyContains ['k'] w then
          toString n ++ st
        else toString n

/-! Thumbnail cache: `UTube.download_and_cache`.  The filesystem is the set
of existing file paths; the image decode/transform/save chain either fully
succeeds (the file appears at `path`) or fails (`None`, nothing written), and
`fetchOk url` is the oracle for that whole fetch-and-process outcome. -/

/-- Outcome oracle for one thumbnail fetch-and-process attempt. -/
structure FetchEnv where
  fetchOk : String → Bool

/-- Source `UTube.download_and_cache`: a file already at `path` is returned
with no network activity; otherwise one GET is attempted (counted in the
third component) and on success the processed image is written to `path`.
The circle/rounded-rectangle mask chosen by `isChannel` affects only the
image bytes, not the caching behaviour. -/
def download_and_cache (e : FetchEnv) (fs : List String) (path url : String)
    (_isChannel : Bool) : Option String × List String × Nat :=
  if path ∈ fs then (some path, fs, 0)
  else if e.fetchOk url then (some path, path :: fs, 1)
  else (none, fs, 1)

/-- Results, final filesystem and total fetch count of two sequential
resolutions of the same cache key. -/
structure TwiceOut where
  r1 : Option String
  r2 : Option String
  fs : List String
  fetches : Nat
deriving DecidableEq

/-- Resolve the same `(path, url)` twice in sequence, threading the filesystem. -/
def resolveTwice (e : FetchEnv) (fs : List String) (path url : String)
    (isChannel : Bool) : TwiceOut :=
  let a := download_and_cache e fs path url isChannel
  let b := download_and_cache e a.2.1 path url isChannel
  ⟨a.1, b.1, b.2.1, a.2.2 + b.2.2⟩

/-! Data model of the extracted payload.  Each field's doc comment names the
`dict.get` chain of the source it stands for; a chain of `get`s with default
values collapses to a single `Option` (absent at any step means `none`). -/

/-- One entry of a `runs` list: `text` is `run.get('text')`; `browseId` is
`run.get('navigationEndpoint', \x7b\x7d).get('browseEndpoint', \x7b\x7d).get('browseId')`. -/
structure Run where
  text : Option String
  browseId : Option String
deriving DecidableEq

/-- One entry of a `thumbnails` list: `url` is `entry.get('url')`. -/
structure Thumb where
  url : Option String
deriving DecidableEq

/-- A `videoRenderer` object, restricted to the fields the pipeline reads.
A present-but-empty (falsy) `videoRenderer` is skipped by the scan exactly
like an absent one, so both are `none` at the `YtItem` level. -/
structure VideoRenderer where
  /-- `v.get('videoId')`. -/
  videoId : Option String
  /-- `v.get('title', \x7b\x7d).get('runs', ...)`; `none` when the chain is absent,
  `some []` when a `runs` key holds an empty list (indexing it raises). -/
  titleRuns : Option (List Run)
  /-- `v.get('longBylineText', \x7b\x7d).get('runs', ...)`, same convention. -/
  bylineRuns : Option (List Run)
  /-- `v.get('lengthText', \x7b\x7d).get('simpleText')`. -/
  lengthSimpleText : Option String
  /-- `v.get('shortViewCountText', \x7b\x7d).get('simpleText')`. -/
  shortViewCountSimpleText : Option String
  /-- `v.get('publishedTimeText', \x7b\x7d).get('simpleText')`. -/
  publishedSimpleText : Option String
  /-- `v.get('channelThumbnailSupportedRenderers', \x7b\x7d)
  .get('channelThumbnailWithLinkRenderer', \x7b\x7d).get('thumbnail', \x7b\x7d).get('thumbnails', ...)`. -/
  channelThumbs : Option (List Thumb)
  /-- `v.get('thumbnail', \x7b\x7d).get('thumbnails', ...)`. -/
  videoThumbs : Option (List Thumb)
deriving DecidableEq

/-- One entry of a section's `contents` list: `item.get('videoRenderer')`. -/
structure YtItem where
  videoRenderer : Option VideoRenderer
deriving DecidableEq

/-- One search section: `section.get('itemSectionRenderer', \x7b\x7d).get('contents', [])`. -/
structure YtSection where
  items : List YtItem
deriving DecidableEq

/-- The parsed `ytInitialData` payload: `data.get('contents', \x7b\x7d)
.get('twoColumnSearchResultsRenderer', \x7b\x7d).get('primaryContents', \x7b\x7d)
.get('sectionListRenderer', \x7b\x7d).get('contents', [])`. -/
structure YtData where
  contents : List YtSection
deriving DecidableEq

deriving instance DecidableEq for Except

/-- Python `xs.get('runs', [\x7b\x7d])[0]`: an absent chain yields the default
singleton's empty dict, a present empty list raises `IndexError`, and a
nonempty list yields its first entry. -/
def runs0 (runs : Option (List Run)) : Except Unit Run :=
  match runs with
  | none => .ok ⟨none, none⟩
  | some [] => .error ()
  | some (r :: _) => .ok r

/-- Python `xs.get('thumbnails', [\x7b\x7d])[0].get('url')`, same convention. -/
def thumbs0 (thumbs : Option (List Thumb)) : Except Unit (Option String) :=
  match thumbs with
  | none => .ok none
  | some [] => .error ()
  | some (t :: _) => .ok t.url

/-- The textual marker opening the embedded data block. -/
def dataMarkerPre : List Char := "var ytInitialData = ".data

/-- The textual marker terminating the embedded data block. -/
def dataMarkerSuf : List Char := ";</script>".data

/-- Source line `r.text.split("var ytInitialData = ")[1].split(";</script>")[0]`:
`none` models the `IndexError` when the opening marker is absent (the `[1]`
of a one-element split); otherwise the block runs from the first opening
marker to the next opening marker or end (`[1]` of the full split), cut at
the first closing marker if one occurs (`[0]` never raises). -/
def extractBlock? (body : String) : Option String :=
  match splitFirst? dataMarkerPre body.data with
  | none => none
  | some p => some ⟨headSplit dataMarkerSuf (headSplit dataMarkerPre p.2)⟩

/-- The preference bundle as the key-value store hands it over: a present key
is a string, an absent one falls back to the coded default. -/
structure Prefs where
  /-- `preferences.get('max_results', 7)`; a present value goes through `int()`. -/
  maxResults : Option String
  /-- `preferences.get('thumb_type', 'channel')`. -/
  thumbType : Option String
  /-- `preferences.get('search_layout', 'layout_inverted')`. -/
  searchLayout : Option String

/-- Everything outside the core that one `on_event` call observes. -/
structure Env where
  /-- `event.get_argument()`. -/
  argument : Option String
  /-- Outcome of the search-page GET: `.error` for any `RequestException`
  (connection failure or non-2xx via `raise_for_status`), `.ok body` for a
  fetched page text. -/
  page : Except Unit String
  /-- `json.loads` on the extracted block: `none` when it raises, `some`
  for a successfully parsed payload of the expected dict shape. -/
  parse : String → Option YtData
  prefs : Prefs
  /-- `os.path.exists` as observed during the dispatch loop; worker effects
  are not visible to it (the source has no synchronisation that would make
  them so before the join). -/
  fileExists : String → Bool
  /-- Outcome oracle for a worker's fetch-and-process of one thumbnail URL. -/
  fetchOk : String → Bool
  /-- `extension.cache_dir`. -/
  cacheDir : String
  /-- The loaded translations dict backing `extension.i18n`. -/
  translations : List (String × String)

/-- Source `int(extension.preferences.get('max_results', 7))`: the absent-key
default `7` is already an int; a present string goes through `int()`, whose
`ValueError` falls to the outer handler. -/
def prefMaxInt (o : Option String) : Except Unit Int :=
  match o with
  | none => .ok 7
  | some s =>
    match pyInt? s with
    | some n => .ok n
    | none => .error ()

/-- Inner loop of the video scan: append each present `videoRenderer` and
break as soon as the collected count reaches `maxR` (the check sits after
the append, so even a non-positive `maxR` admits one record). -/
def scanItems (maxR : Int) (videos : List VideoRenderer) : List YtItem → List VideoRenderer
  | [] => videos
  | it :: rest =>
    match it.videoRenderer with
    | some v =>
      if maxR ≤ ((videos ++ [v]).length : Int) then videos ++ [v]
      else scanItems maxR (videos ++ [v]) rest
    | none => scanItems maxR videos rest

/-- Outer loop of the video scan over sections, with the same early exit. -/
def scanSections (maxR : Int) (videos : List VideoRenderer) : List YtSection → List VideoRenderer
  | [] => videos
  | s :: rest =>
    if maxR ≤ ((scanItems maxR videos s.items).length : Int) then scanItems maxR videos s.items
    else scanSections maxR (scanItems maxR videos s.items) rest

/-- All matching video entries of a payload, in document order. -/
def matchingVideos (sections : List YtSection) : List VideoRenderer :=
  (sections.map (fun s => s.items.filterMap (fun it => it.videoRenderer))).flatten

/-- A thumbnail job submitted to the worker pool:
`executor.submit(download_and_cache, img_path, t_url, is_ch)` keyed back to `v_id`. -/
structure ThumbTask where
  path : String
  url : String
  isCh : Bool
  vId : Option String
deriving DecidableEq

/-- A rendered result row: `ExtensionResultItem` (or the small variant) with
its icon path, texts, and the `OpenUrlAction` URL when one is attached. -/
structure ResultItem where
  icon : String
  name : String
  description : String
  action : Option String
  small : Bool
deriving DecidableEq

/-- What one `on_event` call produces: the rendered rows, whether the search
GET was issued, and the thumbnail jobs submitted to the pool. -/
structure OnEventResult where
  items : List ResultItem
  pageFetched : Bool
  tasks : List ThumbTask
deriving DecidableEq

/-- The fixed default icon path. -/
def iconDefault : String := "images/icon.png"

/-- Python dict assignment `d[k] = v` on the `v_id`-keyed path dict. -/
def pyDictSet (d : List (Option String × String)) (k : Option String) (v : String) :
    List (Option String × String) :=
  match d with
  | [] => [(k, v)]
  | (k0, v0) :: rest => if k0 = k then (k, v) :: rest else (k0, v0) :: pyDictSet rest k v

/-- Python `d.get(k, dflt)` on the `v_id`-keyed path dict. -/
def pyDictGet (d : List (Option String × String)) (k : Option String) (dflt : String) : String :=
  match d with
  | [] => dflt
  | (k0, v0) :: rest => if k0 = k then v0 else pyDictGet rest k dflt

/-- Python `u.startswith('//')`. -/
def pyStartsWith2 (u : String) : Bool :=
  match u.data with
  | '/' :: '/' :: _ => true
  | _ => false

/-- Source line `f"\x7b'c' if is_ch else 'v'\x7d_\x7bchan_id if is_ch else v_id\x7d.png"`
joined under the cache directory; a `None` entity prints as `"None"`. -/
def cacheImgPath (cacheDir : String) (isCh : Bool) (entity : Option String) : String :=
  cacheDir ++ "/" ++ (if isCh then "c" else "v") ++ "_" ++ pyStrOpt entity ++ ".png"

/-- Channel identity of a record: the first byline run's `browseId`, falling
back to the video id (`chan_data.get(...).get('browseId', v_id)`). -/
def chanIdOf (v : VideoRenderer) : Except Unit (Option String) :=
  match runs0 v.bylineRuns with
  | .error e => .error e
  | .ok chanData =>
    .ok (match chanData.browseId with | some b => some b | none => v.videoId)

/-- The per-record cache path in channel-thumbnail mode. -/
def channelImgPath (env : Env) (v : VideoRenderer) : Except Unit String :=
  match chanIdOf v with
  | .error e => .error e
  | .ok c => .ok (cacheImgPath env.cacheDir true c)

/-- One iteration of the dispatch loop (source lines 196–213): fill the path
dict for the `"none"` mode or a cache hit, otherwise read the mode's
thumbnail URL and submit one fetch job when a URL is present, normalising a
protocol-relative URL first.  `IndexError`s from the `runs`/`thumbnails`
indexing propagate as `.error`. -/
def stepVideo (env : Env) (prefThumb : String)
    (st : List (Option String × String) × List ThumbTask) (v : VideoRenderer) :
    Except Unit (List (Option String × String) × List ThumbTask) :=
  match chanIdOf v with
  | .error e => .error e
  | .ok chanId =>
    let vId := v.videoId
    let isCh := prefThumb == "channel"
    let imgPath := cacheImgPath env.cacheDir isCh (if isCh then chanId else vId)
    if prefThumb == "none" then
      .ok (pyDictSet st.1 vId iconDefault, st.2)
    else if env.fileExists imgPath then
      .ok (pyDictSet st.1 vId imgPath, st.2)
    else
      match (if isCh then thumbs0 v.channelThumbs else thumbs0 v.videoThumbs) with
      | .error e => .error e
      | .ok none => .ok st
      | .ok (some u) =>
        .ok (st.1, st.2 ++ [⟨imgPath, (if pyStartsWith2 u then "https:" ++ u else u), isCh, vId⟩])

/-- The dispatch loop over all scanned videos.  A raise inside an iteration
surfaces as `.error` together with the jobs already submitted before it
(those are already running and cannot be unsubmitted). -/
def dispatchLoop (env : Env) (prefThumb : String) :
    List (Option String × String) → List ThumbTask → List VideoRenderer →
    Except Unit (List (Option String × String)) × List ThumbTask
  | paths, tasks, [] => (.ok paths, tasks)
  | paths, tasks, v :: rest =>
    match stepVideo env prefThumb (paths, tasks) v with
    | .error e => (.error e, tasks)
    | .ok st => dispatchLoop env prefThumb st.1 st.2 rest

/-- Outcome of one submitted job, i.e. of `download_and_cache(path, url, is_ch)`
run by a worker: an existing file is returned as is, otherwise the fetch
oracle decides; failure yields `None`. -/
def taskResult (env : Env) (t : ThumbTask) : Option String :=
  if env.fileExists t.path then some t.path
  else if env.fetchOk t.url then some t.path
  else none

/-- The join over `as_completed`: store each job's result (default icon on
failure) under its `v_id`.  Completion order is nondeterministic in the
source; it is modelled as submission order, which only matters when two
submitted jobs share a `v_id`, a case no claim touches. -/
def joinTasks (env : Env) : List (Option String × String) → List ThumbTask →
    List (Option String × String)
  | paths, [] => paths
  | paths, t :: rest =>
    joinTasks env
      (pyDictSet paths t.vId (match taskResult env t with | some p => p | none => iconDefault))
      rest

/-- Render one video row (source lines 220–239): defaults for absent fields,
view-count and date normalisation, icon lookup with default fallback, and the
three-way layout dispatch.  A layout value outside the three known ones
appends nothing. -/
def renderItem (env : Env) (prefLayout : String) (paths : List (Option String × String))
    (v : VideoRenderer) : Except Unit (List ResultItem) :=
  match runs0 v.titleRuns with
  | .error e => .error e
  | .ok titleRun =>
    match runs0 v.bylineRuns with
    | .error e => .error e
    | .ok chanRun =>
      let vId := v.videoId
      let title := titleRun.text.getD "No title"
      let chan := chanRun.text.getD "Channel"
      let dur := v.lengthSimpleText.getD "LIVE"
      let views := format_views env.translations (v.shortViewCountSimpleText.getD "")
      let pub := translate_date env.translations (v.publishedSimpleText.getD "")
      let currentIcon := pyDictGet paths vId iconDefault
      let link := "https://www.youtube.com/watch?v=" ++ pyStrOpt vId
      if prefLayout == "layout_classic" then
        .ok [⟨currentIcon, title, dur ++ " • " ++ chan ++ (if pub = "" then "" else " • " ++ pub),
              some link, false⟩]
      else if prefLayout == "layout_inverted" then
        .ok [⟨currentIcon, chan,
              title ++ " • " ++ dur ++ "\n" ++ views ++ (if pub = "" then "" else " • " ++ pub),
              some link, false⟩]
      else if prefLayout == "layout_minimal" then
        .ok [⟨currentIcon, chan ++ " • " ++ title, "", some link, true⟩]
      else
        .ok []

/-- The rendering loop over all scanned videos. -/
def renderLoop (env : Env) (prefLayout : String) (paths : List (Option String × String)) :
    List VideoRenderer → Except Unit (List ResultItem)
  | [] => .ok []
  | v :: rest =>
    match renderItem env prefLayout paths v with
    | .error e => .error e
    | .ok i =>
      match renderLoop env prefLayout paths rest with
      | .error e => .error e
      | .ok items2 => .ok (i ++ items2)

/-- The short-query prompt row. -/
def promptItem (env : Env) : ResultItem :=
  ⟨iconDefault, i18n env.translations "search_prompt" "Digite para pesquisar no YouTube",
   "", none, false⟩

/-- The network-failure row. -/
def netErrorItem (env : Env) : ResultItem :=
  ⟨iconDefault, i18n env.translations "network_error" "Erro de conexão",
   i18n env.translations "search_error_desc" "Verifique sua internet e tente novamente",
   none, false⟩

/-- The extraction-failure fallback row: open the search in the browser. -/
def parseFallbackItem (env : Env) (query searchUrl : String) : ResultItem :=
  ⟨iconDefault, "'" ++ query ++ "'",
   i18n env.translations "search_browser_line2" "Pesquisar no YouTube via navegador",
   some searchUrl, false⟩

/-- The leading "search in browser" row of a successful extraction. -/
def leadingItem (env : Env) (query searchUrl : String) : ResultItem :=
  ⟨iconDefault, "'" ++ query ++ "'",
   i18n env.translations "search_browser_line2" "Pesquisar no navegador",
   some searchUrl, false⟩

/-- The generic internal-error row of the outer handler. -/
def internalErrorItem (env : Env) : ResultItem :=
  ⟨iconDefault, i18n env.translations "search_error" "Ops! Algo deu errado na busca",
   i18n env.translations "search_error_desc" "Tente novamente ou verifique sua conexão",
   none, false⟩

/-- The stripped query string, `(event.get_argument() or "").strip()`. -/
def queryOf (env : Env) : String := pyStrip (env.argument.getD "")

/-- The browser search URL built from the query. -/
def searchUrlOf (query : String) : String :=
  "https://www.youtube.com/results?search_query=" ++ replaceChar ' ' '+' query

/-- Marker extraction composed with the json parse: `none` exactly when the
inner `try` around the split and `json.loads` catches. -/
def extractData (env : Env) (body : String) : Option YtData :=
  match extractBlock? body with
  | none => none
  | some blk => env.parse blk

/-- Source `KeywordQueryEventListener.on_event`, the query pipeline.  Every
branch of the source's control flow is mirrored: the short-query prompt, the
network-failure row, the extraction fallback, the outer `except Exception`
rows (an unparseable `max_results` or an `IndexError` inside the dispatch or
render loops), and the assembled result list.  `pageFetched` records whether
the search GET was issued and `tasks` which thumbnail jobs were submitted. -/
def on_event (env : Env) : OnEventResult :=
  let query := queryOf env
  if query.length < 3 then
    ⟨[promptItem env], false, []⟩
  else
    let searchUrl := searchUrlOf query
    match env.page with
    | .error _ => ⟨[netErrorItem env], true, []⟩
    | .ok body =>
      match extractData env body with
      | none => ⟨[parseFallbackItem env query searchUrl], true, []⟩
      | some data =>
        match prefMaxInt env.prefs.maxResults with
        | .error _ => ⟨[internalErrorItem env], true, []⟩
        | .ok prefMax =>
          let prefThumb := env.prefs.thumbType.getD "channel"
          let prefLayout := env.prefs.searchLayout.getD "layout_inverted"
          let videos := scanSections prefMax [] data.contents
          match dispatchLoop env prefThumb [] [] videos with
          | (.error _, tasks) => ⟨[internalErrorItem env], true, tasks⟩
          | (.ok paths0, tasks) =>
            let paths := joinTasks env paths0 tasks
            match renderLoop env prefLayout paths videos with
            | .error _ => ⟨[internalErrorItem env], true, tasks⟩
            | .ok vitems => ⟨leadingItem env query searchUrl :: vitems, true, tasks⟩

/-! Concrete sample data used by witnesses and counterexamples. -/

/-- ASCII digit characters, indexed by their value. -/
def dChar (d : Fin 10) : Char := Char.ofNat (48 + d.val)

/-- A minimal video entry carrying only a video id. -/
def dummyVideo (i : String) : VideoRenderer :=
  ⟨some i, none, none, none, none, none, none, none⟩

/-- Two sections of ten video entries each: twenty matching entries. -/
def manySections : List YtSection :=
  [⟨(List.range 10).map (fun i => ⟨some (dummyVideo (toString i))⟩)⟩,
   ⟨(List.range 10).map (fun i => ⟨some (dummyVideo (toString (i + 10)))⟩)⟩]

/-- A fetch oracle on which every thumbnail fetch fails. -/
def failFetch : FetchEnv := ⟨fun _ => false⟩

/-- An environment whose search GET fails with a network error. -/
def envNetFail : Env :=
  { argument := some "cats", page := .error (), parse := fun _ => none,
    prefs := ⟨none, none, none⟩, fileExists := fun _ => false,
    fetchOk := fun _ => false, cacheDir := "/cache", translations := [] }

/-- An environment whose query is below the three-character threshold. -/
def envShort : Env := { envNetFail with argument := some "hi" }

/-- An environment whose fetched page contains no data marker at all. -/
def envNoMarker : Env := { envNetFail with page := .ok "<html>nothing here</html>" }

/-- A well-formed embedded payload holding exactly one minimal video entry;
`json.loads` accepts it, so the matching parse oracle maps exactly this text
to its structured value. -/
def jsonTailC7 : String :=
  "\x7b\"contents\": \x7b\"twoColumnSearchResultsRenderer\": \x7b\"primaryContents\": \x7b\"sectionListRenderer\": \x7b\"contents\": [\x7b\"itemSectionRenderer\": \x7b\"contents\": [\x7b\"videoRenderer\": \x7b\"videoId\": \"v1\"\x7d\x7d]\x7d\x7d]\x7d\x7d\x7d\x7d"

/-- The structured value of `jsonTailC7`. -/
def dataC7 : YtData := ⟨[⟨[⟨some (dummyVideo "v1")⟩]⟩]⟩

/-- An environment whose page has the opening marker but no closing marker,
with the whole remainder of the body a valid payload. -/
def envNoSuffix : Env :=
  { envNetFail with
    page := .ok ("var ytInitialData = " ++ jsonTailC7),
    parse := fun s => if s = jsonTailC7 then some dataC7 else none }

/-- The `envNoSuffix` pipeline run with thumbnail mode `"none"`. -/
def envThumbNone : Env := { envNoSuffix with prefs := ⟨none, some "none", none⟩ }

/-- A video entry of channel `UC1` with a channel avatar thumbnail URL. -/
def cv1 : VideoRenderer :=
  ⟨some "v1", none, some [⟨some "Chan", some "UC1"⟩], none, none, none,
   some [⟨some "//img/1.jpg"⟩], none⟩

/-- A distinct video entry of the same channel `UC1`. -/
def cv2 : VideoRenderer :=
  ⟨some "v2", none, some [⟨some "Chan", some "UC1"⟩], none, none, none,
   some [⟨some "//img/2.jpg"⟩], none⟩

/-! Theorems.  General lemmas come first, then one theorem per claim with its
witness or counterexample. -/

theorem subWBFuel_of_not_hasWB {w tr : List Char} : ∀ (fuel : Nat) {p : Bool} {s : List Char},
    hasWB w p s = false → subWBFuel w tr fuel p s = s := by
  intro fuel
  induction fuel with
  | zero => intro p s _; rfl
  | succ n ih =>
    intro p s h
    cases s with
    | nil => rfl
    | cons c rest =>
      simp only [hasWB, Bool.or_eq_false_iff] at h
      simp only [subWBFuel]
      split
      · rename_i after hm
        rw [hm] at h
        simp at h
      · rw [ih h.2]

theorem subWB_of_not_hasWB {w tr s : List Char} (h : hasWB w false s = false) :
    subWB w tr s = s :=
  subWBFuel_of_not_hasWB s.length h

example : format_views [] "1.2m views" = "1 mi" := by decide
example : format_views [] "900k views" = "900 mil" := by decide
example : format_views [] "3b views" = "3 bi" := by decide
example : format_views [] "1.99m" = "1 mi" := by decide
example : format_views [] "" = "" := by decide
example : format_views [] "no number" = "" := by decide
example : translate_date [] "3 days ago" = "3 days ago" := by decide
example : translate_date [("day", "dia"), ("days", "dias"), ("ago", "atras")] "3 days ago"
    = "3 dias atras" := by decide

/-- C8 (amended): two sequential resolutions of one cache key, in closed
form.  A pre-existing file means zero fetches (each call is a pure read); a
cold cache with a succeeding fetch means exactly one fetch, the success being
cached by the first call; a cold cache with a failing fetch means two
fetches, since failures are not cached. -/
theorem cache_idempotence (e : FetchEnv) (fs : List String) (path url : String)
    (isChannel : Bool) :
    resolveTwice e fs path url isChannel =
      ⟨(if path ∈ fs ∨ e.fetchOk url = true then some path else none),
       (if path ∈ fs ∨ e.fetchOk url = true then some path else none),
       (if path ∈ fs then fs else if e.fetchOk url = true then path :: fs else fs),
       (if path ∈ fs then 0 else if e.fetchOk url = true then 1 else 2)⟩ := by
  by_cases hm : path ∈ fs
  · simp [resolveTwice, download_and_cache, hm]
  · by_cases ho : e.fetchOk url = true
    · simp [resolveTwice, download_and_cache, hm, ho]
    · simp [resolveTwice, download_and_cache, hm, ho]

/-- C8 counterexample: from a cold cache with a failing fetch, resolving the
same key twice performs two network fetches, not exactly one. -/
theorem cache_idempotence_ce :
    (resolveTwice failFetch [] "/cache/c_UC1.png" "https://img/1.jpg" true).fetches = 2 ∧
    (resolveTwice failFetch [] "/cache/c_UC1.png" "https://img/1.jpg" true).fetches ≠ 1 := by
  decide

/-- C5: a query whose stripped length is below three characters produces the
single prompt row, with the search GET never issued and no thumbnail job
submitted. -/
theorem short_query_prompt (env : Env) (h : (queryOf env).length < 3) :
    on_event env = ⟨[promptItem env], false, []⟩ := by
  unfold on_event
  simp only [if_pos h]

theorem short_query_prompt_witness :
    on_event envShort = ⟨[promptItem envShort], false, []⟩ :=
  short_query_prompt envShort (by decide)

/-- C1: for every query of at least three characters the pipeline returns a
non-empty result list on every path — network failure, extraction failure,
an empty payload, or an internal fault caught by the outer handler.  The
embedding is a total function, so no exception escapes to the caller. -/
theorem pipeline_nonempty (env : Env) (_h : 3 ≤ (queryOf env).length) :
    0 < (on_event env).items.length := by
  unfold on_event
  dsimp only
  split
  · simp
  · split
    · simp
    · split
      · simp
      · split
        · simp
        · split
          · simp
          · split
            · simp
            · simp

theorem pipeline_nonempty_witness : 0 < (on_event envNetFail).items.length :=
  pipeline_nonempty envNetFail (by decide)

theorem matchingVideos_cons (s : YtSection) (rest : List YtSection) :
    matchingVideos (s :: rest) =
      s.items.filterMap (fun it => it.videoRenderer) ++ matchingVideos rest := by
  simp [matchingVideos]

theorem scanItems_eq_take (maxR : Int) :
    ∀ (items : List YtItem) (acc : List VideoRenderer),
      (acc.length : Int) < maxR →
      scanItems maxR acc items =
        acc ++ (items.filterMap (fun it => it.videoRenderer)).take (maxR.toNat - acc.length) := by
  intro items
  induction items with
  | nil => intro acc _; simp [scanItems]
  | cons it rest ih =>
    intro acc hacc
    cases hv : it.videoRenderer with
    | none =>
      simp only [scanItems, hv, List.filterMap_cons_none]
      exact ih acc hacc
    | some v =>
      simp only [scanItems, hv, List.filterMap_cons]
      by_cases hle : maxR ≤ ((acc ++ [v]).length : Int)
      · rw [if_pos hle]
        have hk : maxR.toNat - acc.length = 1 := by
          simp only [List.length_append, List.length_cons, List.length_nil] at hle
          omega
        rw [hk, List.take_succ_cons]
        simp
      · rw [if_neg hle]
        have hacc2 : ((acc ++ [v]).length : Int) < maxR := by
          simp only [List.length_append, List.length_cons, List.length_nil] at hle ⊢
          omega
        rw [ih (acc ++ [v]) hacc2]
        have hk : maxR.toNat - acc.length = (maxR.toNat - (acc ++ [v]).length) + 1 := by
          simp only [List.length_append, List.length_cons, List.length_nil]
          omega
        rw [hk, List.take_succ_cons]
        simp

theorem scanSections_eq_take (maxR : Int) :
    ∀ (secs : List YtSection) (acc : List VideoRenderer),
      (acc.length : Int) < maxR →
      scanSections maxR acc secs =
        acc ++ (matchingVideos secs).take (maxR.toNat - acc.length) := by
  intro secs
  induction secs with
  | nil => intro acc _; simp [scanSections, matchingVideos]
  | cons s rest ih =>
    intro acc hacc
    have hs := scanItems_eq_take maxR s.items acc hacc
    simp only [scanSections, hs, matchingVideos_cons, List.take_append_eq_append_take]
    by_cases hle :
        maxR ≤ (((acc ++ (s.items.filterMap (fun it => it.videoRenderer)).take
          (maxR.toNat - acc.length)).length : Nat) : Int)
    · rw [if_pos hle]
      have hz : maxR.toNat - acc.length -
          (s.items.filterMap (fun it => it.videoRenderer)).length = 0 := by
        simp only [List.length_append, List.length_take] at hle
        omega
      rw [hz]
      simp
    · rw [if_neg hle]
      have hacc2 : (((acc ++ (s.items.filterMap (fun it => it.videoRenderer)).take
          (maxR.toNat - acc.length)).length : Nat) : Int) < maxR := by omega
      rw [ih _ hacc2]
      have hfull : (s.items.filterMap (fun it => it.videoRenderer)).length ≤
          maxR.toNat - acc.length := by
        simp only [List.length_append, List.length_take] at hle
        omega
      rw [List.take_of_length_le hfull]
      have harith : maxR.toNat - (acc ++ s.items.filterMap (fun it => it.videoRenderer)).length =
          maxR.toNat - acc.length - (s.items.filterMap (fun it => it.videoRenderer)).length := by
        simp only [List.length_append]
        omega
      rw [harith]
      simp [List.append_assoc]

/-- C6: whenever the payload holds at least `M` matching entries and
`M ≥ 1`, the scan loop returns exactly the first `M` matching entries in
document order — the early exits inside and across sections never skip or
duplicate an entry. -/
theorem extractor_truncates (M : Int) (secs : List YtSection)
    (h1 : 1 ≤ M) (h2 : M.toNat ≤ (matchingVideos secs).length) :
    scanSections M [] secs = (matchingVideos secs).take M.toNat ∧
    (scanSections M [] secs).length = M.toNat := by
  have h0 : ((([] : List VideoRenderer).length : Nat) : Int) < M := by
    simp only [List.length_nil, Nat.cast_zero]
    omega
  have he := scanSections_eq_take M secs [] h0
  simp only [List.nil_append, List.length_nil, Nat.sub_zero] at he
  refine ⟨he, ?_⟩
  rw [he, List.length_take]
  omega

theorem extractor_truncates_witness :
    scanSections 5 [] manySections = (matchingVideos manySections).take (5 : Int).toNat ∧
    (scanSections 5 [] manySections).length = (5 : Int).toNat :=
  extractor_truncates 5 manySections (by decide) (by decide)

/-- C4 (amended): `translate_date` first lowercases the whole input; apart
from that lowercasing it only replaces whole-word occurrences of the
vocabulary.  For any translation table and any input without a whole-word
vocabulary occurrence (such as "Today", whose "day" is only a substring),
the output is exactly the lowercased input. -/
theorem translate_date_wholeword (translations : List (String × String)) (s : String)
    (h : ∀ w ∈ dateWords, hasWB w.data false (pyLower s).data = false) :
    translate_date translations s = pyLower s := by
  by_cases hs : s = ""
  · subst hs
    unfold translate_date
    rw [if_pos rfl]
    decide
  · unfold translate_date
    rw [if_neg hs]
    have hf : dateWords.foldl
        (fun text w => subWB w.data (i18n translations w w).data text)
        (pyLower s).data = (pyLower s).data := by
      simp only [dateWords, List.foldl_cons, List.foldl_nil]
      rw [subWB_of_not_hasWB (h "ago" (by simp [dateWords]))]
      rw [subWB_of_not_hasWB (h "hour" (by simp [dateWords]))]
      rw [subWB_of_not_hasWB (h "hours" (by simp [dateWords]))]
      rw [subWB_of_not_hasWB (h "day" (by simp [dateWords]))]
      rw [subWB_of_not_hasWB (h "days" (by simp [dateWords]))]
      rw [subWB_of_not_hasWB (h "week" (by simp [dateWords]))]
      rw [subWB_of_not_hasWB (h "weeks" (by simp [dateWords]))]
      rw [subWB_of_not_hasWB (h "month" (by simp [dateWords]))]
      rw [subWB_of_not_hasWB (h "months" (by simp [dateWords]))]
      rw [subWB_of_not_hasWB (h "year" (by simp [dateWords]))]
      rw [subWB_of_not_hasWB (h "years" (by simp [dateWords]))]
      rw [subWB_of_not_hasWB (h "minute" (by simp [dateWords]))]
      rw [subWB_of_not_hasWB (h "minutes" (by simp [dateWords]))]
    rw [hf]

/-- C4 counterexample: the input "Today" is not returned unaltered — the
function lowercases it to "today" even though no vocabulary word is replaced
(shown here with the empty table, whose every lookup falls back to the word
itself). -/
theorem translate_date_altered_ce : translate_date [] "Today" ≠ "Today" := by decide

theorem translate_date_wholeword_witness :
    translate_date [("day", "dia")] "Today" = pyLower "Today" :=
  translate_date_wholeword [("day", "dia")] "Today" (by decide)

theorem stepVideo_none (env : Env) (p : List (Option String × String)) (t : List ThumbTask)
    (v : VideoRenderer) :
    stepVideo env "none" (p, t) v = .error () ∨
    stepVideo env "none" (p, t) v = .ok (pyDictSet p v.videoId iconDefault, t) := by
  cases hc : chanIdOf v with
  | error e =>
    left
    cases e
    simp [stepVideo, hc]
  | ok c =>
    right
    simp [stepVideo, hc]

theorem dispatchLoop_none_tasks (env : Env) :
    ∀ (videos : List VideoRenderer) (p : List (Option String × String)) (t : List ThumbTask),
      (dispatchLoop env "none" p t videos).2 = t := by
  intro videos
  induction videos with
  | nil => intro p t; rfl
  | cons v rest ih =>
    intro p t
    rcases stepVideo_none env p t v with h | h
    · simp [dispatchLoop, h]
    · simp [dispatchLoop, h, ih]

theorem pyDictSet_allDefault : ∀ (p : List (Option String × String)) (k : Option String),
    (∀ kv ∈ p, kv.2 = iconDefault) →
    ∀ kv ∈ pyDictSet p k iconDefault, kv.2 = iconDefault := by
  intro p
  induction p with
  | nil =>
    intro k _ kv hkv
    simp [pyDictSet] at hkv
    simp [hkv]
  | cons a rest ih =>
    intro k h kv hkv
    simp only [pyDictSet] at hkv
    split at hkv
    · rcases List.mem_cons.mp hkv with h1 | h1
      · simp [h1]
      · exact h kv (List.mem_cons_of_mem a h1)
    · rcases List.mem_cons.mp hkv with h1 | h1
      · exact h kv (h1 ▸ List.mem_cons_self a rest)
      · exact ih k (fun kv2 hm => h kv2 (List.mem_cons_of_mem a hm)) kv h1

theorem dispatchLoop_none_paths (env : Env) :
    ∀ (videos : List VideoRenderer) (p : List (Option String × String)) (t : List ThumbTask)
      (q : List (Option String × String)),
      (∀ kv ∈ p, kv.2 = iconDefault) →
      (dispatchLoop env "none" p t videos).1 = .ok q →
      ∀ kv ∈ q, kv.2 = iconDefault := by
  intro videos
  induction videos with
  | nil =>
    intro p t q hp hq
    simp only [dispatchLoop, Except.ok.injEq] at hq
    exact hq ▸ hp
  | cons v rest ih =>
    intro p t q hp hq
    rcases stepVideo_none env p t v with h | h
    · simp [dispatchLoop, h] at hq
    · simp only [dispatchLoop, h] at hq
      exact ih _ _ q (pyDictSet_allDefault p v.videoId hp) hq

theorem pyDictGet_allDefault : ∀ (p : List (Option String × String)) (k : Option String),
    (∀ kv ∈ p, kv.2 = iconDefault) → pyDictGet p k iconDefault = iconDefault := by
  intro p
  induction p with
  | nil => intro k _; rfl
  | cons a rest ih =>
    intro k h
    simp only [pyDictGet]
    split
    · exact h a (List.mem_cons_self a rest)
    · exact ih k (fun kv hm => h kv (List.mem_cons_of_mem a hm))

theorem renderItem_icon (env : Env) (layout : String) (paths : List (Option String × String))
    (v : VideoRenderer) (lst : List ResultItem)
    (hp : ∀ kv ∈ paths, kv.2 = iconDefault)
    (h : renderItem env layout paths v = .ok lst) :
    ∀ it ∈ lst, it.icon = iconDefault := by
  intro it hit
  have hicon := pyDictGet_allDefault paths v.videoId hp
  unfold renderItem at h
  split at h
  · exact absurd h (by simp)
  · split at h
    · exact absurd h (by simp)
    · split_ifs at h <;>
        (simp only [Except.ok.injEq] at h; subst h) <;>
        first
        | (simp only [List.mem_singleton] at hit; rw [hit]; exact hicon)
        | exact absurd hit (by simp)

theorem renderLoop_icon (env : Env) (layout : String) (paths : List (Option String × String))
    (hp : ∀ kv ∈ paths, kv.2 = iconDefault) :
    ∀ (videos : List VideoRenderer) (out : List ResultItem),
      renderLoop env layout paths videos = .ok out →
      ∀ it ∈ out, it.icon = iconDefault := by
  intro videos
  induction videos with
  | nil =>
    intro out hout
    simp only [renderLoop, Except.ok.injEq] at hout
    subst hout
    intro it hit
    exact absurd hit (by simp)
  | cons v rest ih =>
    intro out hout
    simp only [renderLoop] at hout
    cases h1 : renderItem env layout paths v with
    | error e => rw [h1] at hout; exact absurd hout (by simp)
    | ok i =>
      rw [h1] at hout
      cases h2 : renderLoop env layout paths rest with
      | error e => rw [h2] at hout; exact absurd hout (by simp)
      | ok items2 =>
        rw [h2] at hout
        simp only [Except.ok.injEq] at hout
        subst hout
        intro it hit
        rcases List.mem_append.mp hit with hm | hm
        · exact renderItem_icon env layout paths v i hp h1 it hm
        · exact ih items2 h2 it hm

/-- C10: with thumbnail mode `"none"` the pipeline submits no thumbnail job
at all — regardless of what is cached — and every row it renders, the
extracted video rows included, carries the fixed default icon path. -/
theorem thumb_none_no_tasks (env : Env)
    (h : env.prefs.thumbType.getD "channel" = "none") :
    (on_event env).tasks = [] ∧
    ((on_event env).items.all fun it => it.icon == iconDefault) = true := by
  have hall : ∀ (its : List ResultItem), (∀ it ∈ its, it.icon = iconDefault) →
      (its.all fun it => it.icon == iconDefault) = true := by
    intro its hits
    rw [List.all_eq_true]
    intro it hit
    exact beq_iff_eq.mpr (hits it hit)
  unfold on_event
  dsimp only
  split
  · exact ⟨rfl, by simp [promptItem, iconDefault]⟩
  · split
    · exact ⟨rfl, by simp [netErrorItem, iconDefault]⟩
    · split
      · exact ⟨rfl, by simp [parseFallbackItem, iconDefault]⟩
      · rename_i data hx
        split
        · exact ⟨rfl, by simp [internalErrorItem, iconDefault]⟩
        · rename_i prefMax hpm
          rw [h]
          split
          · rename_i err tasks hd
            have ht : tasks = [] := by
              have h2 := congrArg Prod.snd hd
              rw [dispatchLoop_none_tasks env] at h2
              exact h2.symm
            exact ⟨ht, by simp [internalErrorItem, iconDefault]⟩
          · rename_i paths0 tasks hd
            have ht : tasks = [] := by
              have h2 := congrArg Prod.snd hd
              rw [dispatchLoop_none_tasks env] at h2
              exact h2.symm
            have hd1 : (dispatchLoop env "none" [] []
                (scanSections prefMax [] data.contents)).1 = .ok paths0 := by
              rw [hd]
            have hq : ∀ kv ∈ paths0, kv.2 = iconDefault :=
              dispatchLoop_none_paths env (scanSections prefMax [] data.contents)
                [] [] paths0 (by simp) hd1
            have hjoin : joinTasks env paths0 tasks = paths0 := by
              rw [ht]
              rfl
            rw [hjoin]
            split
            · exact ⟨ht, by simp [internalErrorItem, iconDefault]⟩
            · rename_i vitems hr
              refine ⟨ht, hall _ ?_⟩
              intro it hit
              rcases List.mem_cons.mp hit with hm | hm
              · rw [hm]; rfl
              · exact renderLoop_icon env _ paths0 hq _ vitems hr it hm

theorem thumb_none_no_tasks_witness :
    (on_event envThumbNone).tasks = [] ∧
    ((on_event envThumbNone).items.all fun it => it.icon == iconDefault) = true :=
  thumb_none_no_tasks envThumbNone (by decide)

theorem dispatchLoop_cons (env : Env) (pt : String) (p : List (Option String × String))
    (t : List ThumbTask) (v : VideoRenderer) (rest : List VideoRenderer) :
    dispatchLoop env pt p t (v :: rest) =
      match stepVideo env pt (p, t) v with
      | .error e => (.error e, t)
      | .ok st => dispatchLoop env pt st.1 st.2 rest := rfl

theorem stepVideo_channel_tasks (env : Env) (p : List (Option String × String))
    (t : List ThumbTask) (v : VideoRenderer) (c : Option String)
    (hc : chanIdOf v = .ok c) :
    ∀ st, stepVideo env "channel" (p, t) v = .ok st →
      ∀ x ∈ st.2, x ∈ t ∨ x.path = cacheImgPath env.cacheDir true c := by
  intro st hst x hx
  unfold stepVideo at hst
  rw [hc] at hst
  simp at hst
  split at hst
  · simp only [Except.ok.injEq] at hst
    subst hst
    exact Or.inl hx
  · split at hst
    · exact absurd hst (by simp)
    · simp only [Except.ok.injEq] at hst
      subst hst
      exact Or.inl hx
    · simp only [Except.ok.injEq] at hst
      subst hst
      rcases List.mem_append.mp hx with hm | hm
      · exact Or.inl hm
      · right
        simp only [List.mem_singleton] at hm
        rw [hm]

theorem dispatchLoop_channel_paths (env : Env) (c : Option String) :
    ∀ (videos : List VideoRenderer) (p : List (Option String × String)) (t : List ThumbTask),
      (∀ v ∈ videos, chanIdOf v = .ok c) →
      (∀ x ∈ t, x.path = cacheImgPath env.cacheDir true c) →
      ∀ x ∈ (dispatchLoop env "channel" p t videos).2,
        x.path = cacheImgPath env.cacheDir true c := by
  intro videos
  induction videos with
  | nil => intro p t _ ht x hx; exact ht x hx
  | cons v rest ih =>
    intro p t hv ht x hx
    rw [dispatchLoop_cons] at hx
    cases hs : stepVideo env "channel" (p, t) v with
    | error e =>
      rw [hs] at hx
      exact ht x hx
    | ok st =>
      rw [hs] at hx
      refine ih st.1 st.2 (fun v2 hm => hv v2 (List.mem_cons_of_mem v hm)) ?_ x hx
      intro y hy
      rcases stepVideo_channel_tasks env p t v c (hv v (List.mem_cons_self v rest)) st hs y hy with
        hm | hp
      · exact ht y hm
      · exact hp

/-- C2 (amended): two records sharing one channel identity in channel
thumbnail mode resolve to the identical cache key, the same derived file
path, and every fetch job the dispatch loop submits for the pair targets
exactly that path.  The loop does not, however, suppress duplicates: it
submits one job per cache-missing record, so the pair can put two jobs —
aimed at the same file — on the pool. -/
theorem channel_key_determinism (env : Env) (v1 v2 : VideoRenderer) (c : Option String)
    (h1 : chanIdOf v1 = .ok c) (h2 : chanIdOf v2 = .ok c) :
    channelImgPath env v1 = channelImgPath env v2 ∧
    ((dispatchLoop env "channel" [] [] [v1, v2]).2.all
      fun tk => tk.path == cacheImgPath env.cacheDir true c) = true := by
  constructor
  · unfold channelImgPath
    rw [h1, h2]
  · rw [List.all_eq_true]
    intro tk htk
    refine beq_iff_eq.mpr (dispatchLoop_channel_paths env c [v1, v2] [] [] ?_ ?_ tk htk)
    · intro v hv
      rcases List.mem_cons.mp hv with hm | hm
      · rw [hm]; exact h1
      · simp only [List.mem_singleton] at hm
        rw [hm]; exact h2
    · intro x hx
      exact absurd hx (by simp)

theorem channel_key_determinism_witness :
    channelImgPath envNetFail cv1 = channelImgPath envNetFail cv2 ∧
    ((dispatchLoop envNetFail "channel" [] [] [cv1, cv2]).2.all
      fun tk => tk.path == cacheImgPath envNetFail.cacheDir true (some "UC1")) = true :=
  channel_key_determinism envNetFail cv1 cv2 (some "UC1") (by decide) (by decide)

/-- C2 counterexample: two distinct records of the same channel, in channel
mode with a cold cache, put two fetch jobs on the pool — both aimed at the
same derived path — so "at most one fetch task for the pair" fails on the
code. -/
theorem channel_key_ce :
    cv1 ≠ cv2 ∧
    chanIdOf cv1 = chanIdOf cv2 ∧
    ((dispatchLoop envNetFail "channel" [] [] [cv1, cv2]).2.map fun tk => tk.path) =
      ["/cache/c_UC1.png", "/cache/c_UC1.png"] ∧
    ¬ ((dispatchLoop envNetFail "channel" [] [] [cv1, cv2]).2.length ≤ 1) := by
  decide

/-- C7 (amended): a fetched page whose body lacks the opening marker, or
whose extracted block `json.loads` rejects, produces exactly one fallback
row that opens the search in the browser, with no fault reaching the caller.
A missing closing marker alone does not force this: the block then runs to
the end of the body and may still parse. -/
theorem extraction_fallback (env : Env) (body : String)
    (hq : 3 ≤ (queryOf env).length) (hp : env.page = .ok body)
    (hx : extractData env body = none) :
    on_event env =
      ⟨[parseFallbackItem env (queryOf env) (searchUrlOf (queryOf env))], true, []⟩ := by
  unfold on_event
  dsimp only
  rw [if_neg (by omega), hp]
  dsimp only
  rw [hx]

theorem extraction_fallback_witness :
    on_event envNoMarker =
      ⟨[parseFallbackItem envNoMarker (queryOf envNoMarker)
        (searchUrlOf (queryOf envNoMarker))], true, []⟩ :=
  extraction_fallback envNoMarker "<html>nothing here</html>" (by decide) rfl (by decide)

set_option maxRecDepth 4000 in
/-- C7 counterexample: a page missing only the closing marker, whose whole
remainder parses, does not fall back — the pipeline proceeds and renders the
leading browser row plus the extracted video row, two rows rather than one. -/
theorem extraction_fallback_ce :
    pyContains dataMarkerSuf ("var ytInitialData = " ++ jsonTailC7).data = false ∧
    (on_event envNoSuffix).items.length = 2 := by decide

theorem dropLead?_decomp : ∀ {n s t : List Char}, dropLead? n s = some t → s = n ++ t := by
  intro n
  induction n with
  | nil =>
    intro s t h
    simp only [dropLead?, Option.some.injEq] at h
    simp [h]
  | cons a n ih =>
    intro s t h
    cases s with
    | nil => simp [dropLead?] at h
    | cons b s =>
      simp only [dropLead?] at h
      split at h
      · rename_i hab
        subst hab
        simp [ih h]
      · exact absurd h (by simp)

theorem splitFirst?_decomp {n : List Char} :
    ∀ {s x y : List Char}, splitFirst? n s = some (x, y) → s = x ++ n ++ y := by
  intro s
  induction s with
  | nil =>
    intro x y h
    simp only [splitFirst?] at h
    split at h
    · rename_i hn
      simp only [Option.some.injEq, Prod.mk.injEq] at h
      simp [hn, ← h.1, ← h.2]
    · exact absurd h (by simp)
  | cons c rest ih =>
    intro x y h
    simp only [splitFirst?] at h
    split at h
    · rename_i after hd
      simp only [Option.some.injEq, Prod.mk.injEq] at h
      rw [← h.1, ← h.2]
      simpa using dropLead?_decomp hd
    · rcases Option.map_eq_some'.mp h with ⟨p, hp, hxy⟩
      simp only [Prod.mk.injEq] at hxy
      rw [← hxy.1, ← hxy.2]
      have := ih (x := p.1) (y := p.2) (by rw [hp])
      simp [this]

theorem pyContains_eq_false {n s : List Char} {c : Char} (hcn : c ∈ n) (hcs : c ∉ s) :
    pyContains n s = false := by
  unfold pyContains
  cases hsp : splitFirst? n s with
  | none => rfl
  | some p =>
    exfalso
    obtain ⟨x, y⟩ := p
    apply hcs
    rw [splitFirst?_decomp hsp]
    simp [hcn]

theorem splitFirst?_isSome_singleton {c : Char} :
    ∀ {s : List Char}, c ∈ s → (splitFirst? [c] s).isSome = true := by
  intro s
  induction s with
  | nil => intro h; exact absurd h (by simp)
  | cons b rest ih =>
    intro h
    by_cases hcb : c = b
    · simp [splitFirst?, dropLead?, hcb]
    · have hcr : c ∈ rest := by
        rcases List.mem_cons.mp h with h1 | h1
        · exact absurd h1 hcb
        · exact h1
      simp only [splitFirst?, dropLead?, if_neg hcb]
      simp [Option.isSome_map', ih hcr]

theorem pyContains_singleton {c : Char} {s : List Char} (h : c ∈ s) :
    pyContains [c] s = true :=
  splitFirst?_isSome_singleton h

theorem mapFix {f : Char → Char} : ∀ {l : List Char}, (∀ c ∈ l, f c = c) → l.map f = l := by
  intro l
  induction l with
  | nil => intro _; rfl
  | cons a rest ih =>
    intro h
    simp only [List.map_cons]
    rw [h a (List.mem_cons_self a rest), ih (fun c hc => h c (List.mem_cons_of_mem a hc))]

theorem takeWhileAppendAll {p : Char → Bool} :
    ∀ {xs ys : List Char}, (∀ c ∈ xs, p c = true) →
      (xs ++ ys).takeWhile p = xs ++ ys.takeWhile p := by
  intro xs ys
  induction xs with
  | nil => intro _; rfl
  | cons a rest ih =>
    intro h
    simp only [List.cons_append, List.takeWhile_cons_of_pos (h a (List.mem_cons_self a rest))]
    rw [ih (fun c hc => h c (List.mem_cons_of_mem a hc))]

theorem dChar_isDigit : ∀ d : Fin 10, (dChar d).isDigit = true := by decide

theorem dChar_isNum : ∀ d : Fin 10, isNumChar (dChar d) = true := by decide

theorem dChar_toLower : ∀ d : Fin 10, Char.toLower (dChar d) = dChar d := by decide

theorem dChar_ne_comma : ∀ d : Fin 10, ¬(dChar d = ',') := by decide

theorem not_mem_map_dChar {c : Char} (h : ∀ d : Fin 10, c ≠ dChar d) :
    ∀ {l : List (Fin 10)}, c ∉ l.map dChar := by
  intro l hm
  rcases List.mem_map.mp hm with ⟨d, _, hd⟩
  exact h d hd.symm

theorem mem_digitDotM {c : Char} {a b : List (Fin 10)}
    (h : c ∈ a.map dChar ++ '.' :: b.map dChar ++ ['m']) :
    (∃ d, c = dChar d) ∨ c = '.' ∨ c = 'm' := by
  rcases List.mem_append.mp h with h1 | h1
  · rcases List.mem_append.mp h1 with h2 | h2
    · rcases List.mem_map.mp h2 with ⟨d, _, hd⟩
      exact Or.inl ⟨d, hd.symm⟩
    · rcases List.mem_cons.mp h2 with h3 | h3
      · exact Or.inr (Or.inl h3)
      · rcases List.mem_map.mp h3 with ⟨d, _, hd⟩
        exact Or.inl ⟨d, hd.symm⟩
  · exact Or.inr (Or.inr (by simpa using h1))

theorem not_mem_digitDotM {c : Char} {a b : List (Fin 10)}
    (h1 : ∀ d : Fin 10, c ≠ dChar d) (h2 : c ≠ '.') (h3 : c ≠ 'm') :
    c ∉ a.map dChar ++ '.' :: b.map dChar ++ ['m'] := by
  intro hm
  rcases mem_digitDotM hm with ⟨d, hd⟩ | h | h
  · exact h1 d hd
  · exact h2 h
  · exact h3 h

theorem mkCons_ne_empty (c : Char) (l : List Char) : (⟨c :: l⟩ : String) ≠ "" := by
  intro h
  have h2 : (⟨c :: l⟩ : String).data = "".data := congrArg String.data h
  exact List.noConfusion h2

/-- C9: on an input whose numeric part has integer digits `a`, a decimal dot
and fractional digits `b`, followed by the million marker, `format_views`
truncates — the output integer is the value of `a` alone, whatever `b` is —
and appends the million suffix. -/
theorem format_views_truncates (a b : List (Fin 10)) (ha : a ≠ []) :
    format_views [] ⟨a.map dChar ++ '.' :: b.map dChar ++ ['m']⟩ =
      toString (natOfDigits (a.map dChar)) ++ " " ++ "mi" := by
  obtain ⟨a0, a2, rfl⟩ : ∃ a0 a2, a = a0 :: a2 := by
    cases a with
    | nil => exact absurd rfl ha
    | cons x xs => exact ⟨x, xs, rfl⟩
  have hne : (⟨(a0 :: a2).map dChar ++ '.' :: b.map dChar ++ ['m']⟩ : String) ≠ "" := by
    simp only [List.map_cons, List.cons_append]
    exact mkCons_ne_empty _ _
  have hfix1 : ∀ c ∈ (a0 :: a2).map dChar ++ '.' :: b.map dChar ++ ['m'],
      Char.toLower c = c := by
    intro c hc
    rcases mem_digitDotM hc with ⟨d, rfl⟩ | rfl | rfl
    · exact dChar_toLower d
    · decide
    · decide
  have hfix2 : ∀ c ∈ (a0 :: a2).map dChar ++ '.' :: b.map dChar ++ ['m'],
      (if c = ',' then '.' else c) = c := by
    intro c hc
    rcases mem_digitDotM hc with ⟨d, rfl⟩ | rfl | rfl
    · exact if_neg (dChar_ne_comma d)
    · decide
    · decide
  have hw : (((⟨(a0 :: a2).map dChar ++ '.' :: b.map dChar ++ ['m']⟩ : String).data.map
        Char.toLower).map (fun c => if c = ',' then '.' else c)) =
      (a0 :: a2).map dChar ++ '.' :: b.map dChar ++ ['m'] := by
    show ((((a0 :: a2).map dChar ++ '.' :: b.map dChar ++ ['m']).map Char.toLower).map
        (fun c => if c = ',' then '.' else c)) = _
    rw [mapFix hfix1, mapFix hfix2]
  have hfr : firstNumRun? ((a0 :: a2).map dChar ++ '.' :: b.map dChar ++ ['m']) =
      some (((a0 :: a2).map dChar ++ '.' :: b.map dChar ++ ['m']).takeWhile isNumChar) := by
    simp only [List.map_cons, List.cons_append, firstNumRun?, dChar_isDigit a0, if_true]
    rfl
  have hallNum : ∀ c ∈ (a0 :: a2).map dChar ++ '.' :: b.map dChar, isNumChar c = true := by
    intro c hc
    rcases List.mem_append.mp hc with h1 | h1
    · obtain ⟨d, _, hd⟩ := List.mem_map.mp h1
      rw [← hd]; exact dChar_isNum d
    · rcases List.mem_cons.mp h1 with h2 | h2
      · rw [h2]; decide
      · obtain ⟨d, _, hd⟩ := List.mem_map.mp h2
        rw [← hd]; exact dChar_isNum d
  have htw : (((a0 :: a2).map dChar ++ '.' :: b.map dChar ++ ['m']).takeWhile isNumChar) =
      (a0 :: a2).map dChar ++ '.' :: b.map dChar := by
    rw [takeWhileAppendAll hallNum, List.takeWhile_cons_of_neg (by decide)]
    simp
  have hcount : ((a0 :: a2).map dChar ++ '.' :: b.map dChar).count '.' = 1 := by
    rw [List.count_append, List.count_eq_zero.mpr (not_mem_map_dChar (by decide)),
      List.count_cons_self, List.count_eq_zero.mpr (not_mem_map_dChar (by decide))]
  have hallD : ∀ c ∈ (a0 :: a2).map dChar, Char.isDigit c = true := by
    intro c hc
    obtain ⟨d, _, hd⟩ := List.mem_map.mp hc
    rw [← hd]; exact dChar_isDigit d
  have hpf : pyFloatTrunc? ((a0 :: a2).map dChar ++ '.' :: b.map dChar) =
      some (natOfDigits ((a0 :: a2).map dChar)) := by
    unfold pyFloatTrunc?
    rw [if_pos (by rw [hcount])]
    congr 1
    rw [takeWhileAppendAll hallD, List.takeWhile_cons_of_neg (by decide)]
    simp
  have hcb2 : pyContains ['b', 'i'] ((a0 :: a2).map dChar ++ '.' :: b.map dChar ++ ['m'])
      = false :=
    pyContains_eq_false (c := 'b') (by decide)
      (not_mem_digitDotM (by decide) (by decide) (by decide))
  have hcb1 : pyContains ['b'] ((a0 :: a2).map dChar ++ '.' :: b.map dChar ++ ['m'])
      = false :=
    pyContains_eq_false (c := 'b') (by decide)
      (not_mem_digitDotM (by decide) (by decide) (by decide))
  have hcmi : pyContains ['m', 'i'] ((a0 :: a2).map dChar ++ '.' :: b.map dChar ++ ['m'])
      = false :=
    pyContains_eq_false (c := 'i') (by decide)
      (not_mem_digitDotM (by decide) (by decide) (by decide))
  have hcmil : pyContains ['m', 'i', 'l'] ((a0 :: a2).map dChar ++ '.' :: b.map dChar ++ ['m'])
      = false :=
    pyContains_eq_false (c := 'i') (by decide)
      (not_mem_digitDotM (by decide) (by decide) (by decide))
  have hck : pyContains ['k'] ((a0 :: a2).map dChar ++ '.' :: b.map dChar ++ ['m'])
      = false :=
    pyContains_eq_false (c := 'k') (by decide)
      (not_mem_digitDotM (by decide) (by decide) (by decide))
  have hcm : pyContains ['m'] ((a0 :: a2).map dChar ++ '.' :: b.map dChar ++ ['m'])
      = true :=
    pyContains_singleton (by simp)
  unfold format_views
  rw [if_neg hne]
  dsimp only
  rw [hw, hfr, htw]
  dsimp only
  rw [hpf]
  dsimp only
  rw [hcb2, hcb1, hcmi, hcmil, hck, hcm]
  simp [i18n, lookupT]

theorem format_views_truncates_witness :
    format_views []
        ⟨[(1 : Fin 10)].map dChar ++ '.' :: [(9 : Fin 10), (9 : Fin 10)].map dChar ++ ['m']⟩ =
      toString (natOfDigits ([(1 : Fin 10)].map dChar)) ++ " " ++ "mi" :=
  format_views_truncates [1] [9, 9] (by decide)

/-- C3: at the input "800 mil" — a thousands-abbreviated count whose only
magnitude marker is "mil" — the code takes the million branch, because its
substring test for "mi" matches inside "mil" before the guarded single-"m"
test (the one that excludes "mil" and "k") is ever consulted; the output is
"800 mi", not the thousand form "800 mil" that the stated priority demands.
The unguarded "mi" test makes the "mil" disjunct of the thousand branch
unreachable. -/
theorem format_views_mil_misclassified :
    format_views [] "800 mil" = "800 mi" ∧ format_views [] "800 mil" ≠ "800 mil" := by
  decide

end UTube
